import Mathlib

set_option maxRecDepth 8192

/-!
Shallow embedding of the MAS_writer iterative-refinement engine.

Sources embedded:
- `src/router_agent_orchestrator.py`: `parse_scorecard`, `_clean_kill_list`,
  `run_refinement_loop` (the document-refinement convergence loop);
- `src/ds_star_agent.py`: `ExecutionEngine.execute_script`,
  `VerifierAgent.evaluate_sufficiency`, `RouterAgent.decide_action`,
  `PlannerAgent.add_step` / `correct_step` / `get_full_plan`, and
  `DSStarOrchestrator.run` (the analysis-refinement loop).

Collaborator LLM calls (Drafter/Critic/Strategist/Coder/Verifier/Router/
Planner/Finalyzer) are opaque text-to-text functions in the source (mock
`invoke` methods returning strings); they are modelled as arbitrary Lean
functions of exactly the arguments the source passes.  Constant run-wide
inputs (hypotheses, data descriptions) are absorbed into those functions.
Printing/logging and file writes are side effects outside the pure model.
All texts are treated as ASCII, matching every string constant in the
repository; Python `str.upper`, `str.strip` and the regex `\s` classes are
modelled on their exact ASCII behaviour (`pyWhitespace` below).

The document-refinement loop is embedded twice.  The string-scorecard model
(`parse_scorecard`, `run_refinement_loop`) restricts the structured-object
decode to the string-valued scorecard wire shape; on it the loop's field
access always succeeds.  The exact model (`parse_scorecard_exact`,
`run_refinement_loop_exact`) decodes structured objects exactly as
`json.loads` does, with arbitrary JSON values, and models the two uncaught
exceptions of the source: the `AttributeError` raised at line 262 when the
resolved-issues value is not a string, and the `NameError` raised in the
post-loop diagnostics when the budget is zero and no round ever ran.
Statements whose truth needs only string-valued scorecards use the
restricted model (there, model behaviour implies program behaviour); the
claims about rejection priority and budget exhaustion are settled on the
exact model, which the non-string runs refute.
-/

/-! ## Python-style string primitives (character-list based, kernel-reducible) -/

/-- Python `str.upper` on ASCII text (`Char.toUpper` maps only ASCII letters). -/
def pyUpper (s : String) : String := String.mk (s.data.map Char.toUpper)

/-- The ASCII characters Python treats as whitespace, both for `str.strip`
(`str.isspace`) and for the regex class `\s` on text patterns: tab, newline,
vertical tab, form feed, carriage return, the separator control characters
`\x1c`-`\x1f`, and space (checked against CPython: both sets coincide on
ASCII). -/
def pyWhitespace (c : Char) : Bool :=
  c == ' ' || c == '\t' || c == '\n' || c == Char.ofNat 11 || c == Char.ofNat 12 ||
    c == '\r' || c == Char.ofNat 28 || c == Char.ofNat 29 || c == Char.ofNat 30 ||
    c == Char.ofNat 31

/-- Python `str.strip` on a character list. -/
def stripChars (cs : List Char) : List Char :=
  ((cs.dropWhile pyWhitespace).reverse.dropWhile pyWhitespace).reverse

/-- Python `str.strip` on a string. -/
def pyStrip (s : String) : String := String.mk (stripChars s.data)

/-- Contiguous-sublist test: does `needle` occur inside the second list. -/
def containsSub (needle : List Char) : List Char → Bool
  | [] => needle.isEmpty
  | c :: t => needle.isPrefixOf (c :: t) || containsSub needle t

/-- Python `sub in hay` substring containment. -/
def pyContains (hay sub : String) : Bool := containsSub sub.data hay.data

/-- Index of the leftmost occurrence of `needle` in the list, if any
(`re.search` on a literal pattern). -/
def findSubIdx (needle : List Char) : List Char → Option Nat
  | [] => if needle.isEmpty then some 0 else none
  | c :: t =>
    if needle.isPrefixOf (c :: t) then some 0
    else (findSubIdx needle t).map (fun n => n + 1)

/-- Leftmost case-insensitive occurrence of a literal (`re.search` with
`re.IGNORECASE`); positions are preserved because uppercasing is 1-to-1 on
characters. -/
def findCI (hay needle : List Char) : Option Nat :=
  findSubIdx (needle.map Char.toUpper) (hay.map Char.toUpper)

/-! ## Python-dict behaviour for the scorecard field map -/

/-- Python `d[k] = v`: overwrite in place if the key exists, else append
(insertion order preserved). -/
def dictInsert (m : List (String × String)) (k v : String) : List (String × String) :=
  if m.any (fun p => p.1 == k) then
    m.map (fun p => if p.1 == k then (p.1, v) else p)
  else m ++ [(k, v)]

/-- Python `d.get(k, default)`. -/
def dictGetD (m : List (String × String)) (k d : String) : String :=
  match m.find? (fun p => p.1 == k) with
  | some p => p.2
  | none => d

/-! ## Structured-object decode, string-valued restriction

The scorecard wire format documented by the source is a flat string-keyed,
string-valued object, and `jsonLoadsObj` decodes exactly that shape (strings
with the standard JSON escapes).  Python's `json.loads` itself accepts more:
objects whose values are numbers, booleans, null, arrays or nested objects
also decode successfully and `parse_scorecard` returns them as they are
(router_agent_orchestrator.py line 148), after which the loop's field access
`scorecard.get("Previous_Kill_List_Fixed", "NO").upper()` (line 262) raises
`AttributeError` when the resolved value is not a string.  A string-valued
field map cannot represent those runs, so this restricted model diverges from
the source on such scorecards.  The exact decode and the loop model built on
it — `json_loads_exact`, `parse_scorecard_exact`, `run_refinement_loop_exact`
below — capture them faithfully; the restricted model is kept for the claims
whose statements only need string-valued scorecards, where model behaviour
implies program behaviour. -/

def jsonWsChar (c : Char) : Bool := c == ' ' || c == '\t' || c == '\n' || c == '\r'

def skipWs (cs : List Char) : List Char := cs.dropWhile jsonWsChar

/-- The opening-brace character of a structured object. -/
def lbrace : Char := Char.ofNat 123

/-- The closing-brace character of a structured object. -/
def rbrace : Char := Char.ofNat 125

def hexVal (c : Char) : Option Nat :=
  if ('0' ≤ c ∧ c ≤ '9') then some (c.toNat - 48)
  else if ('a' ≤ c ∧ c ≤ 'f') then some (c.toNat - 87)
  else if ('A' ≤ c ∧ c ≤ 'F') then some (c.toNat - 55)
  else none

/-- JSON string body (after the opening quote): returns the decoded characters
and the remainder after the closing quote.  Strict mode: unescaped control
characters are rejected.  Fuel-driven; `length + 1` fuel always suffices. -/
def parseJStrAux : Nat → List Char → Option (List Char × List Char)
  | 0, _ => none
  | _, [] => none
  | fuel + 1, c :: t =>
    if c = '"' then some ([], t)
    else if c = '\\' then
      match t with
      | [] => none
      | e :: t2 =>
        if e = '"' then (parseJStrAux fuel t2).map (fun p => ('"' :: p.1, p.2))
        else if e = '\\' then (parseJStrAux fuel t2).map (fun p => ('\\' :: p.1, p.2))
        else if e = '/' then (parseJStrAux fuel t2).map (fun p => ('/' :: p.1, p.2))
        else if e = 'b' then (parseJStrAux fuel t2).map (fun p => (Char.ofNat 8 :: p.1, p.2))
        else if e = 'f' then (parseJStrAux fuel t2).map (fun p => (Char.ofNat 12 :: p.1, p.2))
        else if e = 'n' then (parseJStrAux fuel t2).map (fun p => ('\n' :: p.1, p.2))
        else if e = 'r' then (parseJStrAux fuel t2).map (fun p => ('\r' :: p.1, p.2))
        else if e = 't' then (parseJStrAux fuel t2).map (fun p => ('\t' :: p.1, p.2))
        else if e = 'u' then
          match t2 with
          | h1 :: h2 :: h3 :: h4 :: t3 =>
            match hexVal h1, hexVal h2, hexVal h3, hexVal h4 with
            | some a, some b, some c2, some d =>
              (parseJStrAux fuel t3).map
                (fun p => (Char.ofNat (((a * 16 + b) * 16 + c2) * 16 + d) :: p.1, p.2))
            | _, _, _, _ => none
          | _ => none
        else none
    else if c.toNat < 32 then none
    else (parseJStrAux fuel t).map (fun p => (c :: p.1, p.2))

/-- Members of a flat string-to-string JSON object; `first` tracks whether an
immediate closing brace is legal (only before any member was read). -/
def jsonMembersAux : Nat → List Char → List (String × String) → Bool →
    Option (List (String × String) × List Char)
  | 0, _, _, _ => none
  | _, [], _, _ => none
  | fuel + 1, c :: t, acc, first =>
    if first && (c == rbrace) then some (acc, t)
    else if c = '"' then
      match parseJStrAux (t.length + 1) t with
      | none => none
      | some (k, r1) =>
        match skipWs r1 with
        | ':' :: r2 =>
          match skipWs r2 with
          | '"' :: r3 =>
            match parseJStrAux (r3.length + 1) r3 with
            | none => none
            | some (v, r4) =>
              let acc2 := dictInsert acc (String.mk k) (String.mk v)
              match skipWs r4 with
              | ',' :: r5 => jsonMembersAux fuel (skipWs r5) acc2 false
              | c2 :: r5 => if c2 = rbrace then some (acc2, r5) else none
              | [] => none
          | _ => none
        | _ => none
    else none

/-- Strict decode of a flat string-to-string JSON object: the string-valued
restriction of `json.loads` (surrounding whitespace allowed, trailing garbage
rejected).  On well-formed objects with non-string values this returns `none`
where `json.loads` succeeds — see the section comment above and
`json_loads_exact` for the faithful decode. -/
def jsonLoadsObj (s : String) : Option (List (String × String)) :=
  match skipWs s.data with
  | [] => none
  | c :: t =>
    if c = lbrace then
      match jsonMembersAux (t.length + 1) (skipWs t) [] true with
      | none => none
      | some (m, rest) => if skipWs rest = [] then some m else none
    else none

/-! ## `_clean_kill_list` (router_agent_orchestrator.py lines 60-96)

The five `re.sub` patterns (flags `MULTILINE | IGNORECASE`) are applied in
source order.  Each pattern is anchored at a line start and, after
backtracking is resolved, matches
`letter '.' whitespace-run ... ':' maximal-whitespace-run`
(the trailing `\n?` never consumes a character because the greedy `\s*`
before it already took every whitespace character). -/

/-- Split at the first colon: `(prefixWithoutColon, rest)` where `rest` is
empty or starts with the colon. -/
def breakAtColon : List Char → List Char × List Char
  | [] => ([], [])
  | c :: t =>
    if c = ':' then ([], c :: t)
    else
      let r := breakAtColon t
      (c :: r.1, r.2)

/-- Case-insensitive literal test at the head of a list. -/
def ciPrefixOf (lit cs : List Char) : Bool :=
  (lit.map Char.toUpper).isPrefixOf (cs.map Char.toUpper)

/-- Matcher for the literal header patterns 1-3, e.g.
`^A\.\s+The Kill List Status:\s*\n?`.  Returns the number of characters
consumed and whether the continuation sits at a line start. -/
def matchHeaderLit (letter : Char) (lit : List Char) : List Char → Option (Nat × Bool)
  | c1 :: c2 :: rest =>
    if c1.toUpper = letter ∧ c2 = '.' then
      let ws1 := rest.takeWhile pyWhitespace
      if ws1.isEmpty then none
      else
        let r2 := rest.drop ws1.length
        if ciPrefixOf lit r2 then
          match r2.drop lit.length with
          | ':' :: after =>
            let ws2 := after.takeWhile pyWhitespace
            some (2 + ws1.length + lit.length + 1 + ws2.length, ws2.getLast? == some '\n')
          | _ => none
        else none
    else none
  | _ => none

/-- Matcher for pattern 4, `^D\.\s+Evidence Review.*?:\s*\n?`: the lazy `.*?`
cannot cross a newline, so the first colon after the literal must occur
before any newline. -/
def matchHeaderEvidence : List Char → Option (Nat × Bool)
  | c1 :: c2 :: rest =>
    if c1.toUpper = 'D' ∧ c2 = '.' then
      let ws1 := rest.takeWhile pyWhitespace
      if ws1.isEmpty then none
      else
        let r2 := rest.drop ws1.length
        let lit := "Evidence Review".data
        if ciPrefixOf lit r2 then
          let br := breakAtColon (r2.drop lit.length)
          match br.2 with
          | ':' :: after =>
            if br.1.all (fun c => c != '\n') then
              let ws2 := after.takeWhile pyWhitespace
              some (2 + ws1.length + lit.length + br.1.length + 1 + ws2.length,
                ws2.getLast? == some '\n')
            else none
          | _ => none
        else none
    else none
  | _ => none

/-- Matcher for pattern 5, `^[A-Z]\.\s+[^:]+:\s*\n?` (IGNORECASE makes the
letter class both cases; `\s` and `[^:]` may cross newlines): needs at least
one whitespace character after the dot and at least two characters before the
first colon. -/
def matchHeaderGeneric : List Char → Option (Nat × Bool)
  | c1 :: c2 :: rest =>
    if c1.isAlpha ∧ c2 = '.' then
      let br := breakAtColon rest
      match br.2 with
      | ':' :: after =>
        match br.1 with
        | w :: _ =>
          if pyWhitespace w = true ∧ 2 ≤ br.1.length then
            let ws2 := after.takeWhile pyWhitespace
            some (2 + br.1.length + 1 + ws2.length, ws2.getLast? == some '\n')
          else none
        | [] => none
      | _ => none
    else none
  | _ => none

/-- One `re.sub(pattern, '', text)` pass for a line-start-anchored pattern:
scan left to right, try the matcher only at line starts, drop matched spans,
continue scanning after each match (non-overlapping).  Fuel-driven; every
step consumes at least one character, so `length` fuel suffices. -/
def subPatAux (matchAt : List Char → Option (Nat × Bool)) :
    Nat → Bool → List Char → List Char
  | 0, _, cs => cs
  | _ + 1, _, [] => []
  | fuel + 1, atLineStart, c :: t =>
    if atLineStart then
      match matchAt (c :: t) with
      | some (n, la) =>
        if n = 0 then c :: subPatAux matchAt fuel (c == '\n') t
        else subPatAux matchAt fuel la ((c :: t).drop n)
      | none => c :: subPatAux matchAt fuel (c == '\n') t
    else c :: subPatAux matchAt fuel (c == '\n') t

def subPat (matchAt : List Char → Option (Nat × Bool)) (cs : List Char) : List Char :=
  subPatAux matchAt cs.length true cs

/-- One pass of `re.sub(r'\n\x7b3,\x7d', '\n\n', text)`: every maximal run of
three or more newlines becomes exactly two. -/
def collapseNLAux : Nat → List Char → List Char
  | 0, cs => cs
  | _ + 1, [] => []
  | fuel + 1, c :: t =>
    if c = '\n' then
      let run := (c :: t).takeWhile (fun x => x == '\n')
      let rest := (c :: t).dropWhile (fun x => x == '\n')
      (if 3 ≤ run.length then ['\n', '\n'] else run) ++ collapseNLAux fuel rest
    else c :: collapseNLAux fuel t

def collapseNL (cs : List Char) : List Char := collapseNLAux cs.length cs

/-- `_clean_kill_list` (router_agent_orchestrator.py lines 60-96): empty input
returned unchanged; otherwise the five header patterns are removed in order,
newline runs are collapsed, and the result is stripped. -/
def clean_kill_list (audit_report : String) : String :=
  if audit_report = "" then audit_report
  else
    let p1 := subPat (matchHeaderLit 'A' "The Kill List Status".data) audit_report.data
    let p2 := subPat (matchHeaderLit 'B' "Structural Compliance".data) p1
    let p3 := subPat (matchHeaderLit 'C' "ADK Architecture Review".data) p2
    let p4 := subPat matchHeaderEvidence p3
    let p5 := subPat matchHeaderGeneric p4
    String.mk (stripChars (collapseNL p5))

/-! ## `parse_scorecard` (router_agent_orchestrator.py lines 100-183) -/

def SCORECARD_START : String := "**REVIEWER_SCORECARD**"

def SCORECARD_END : String := "**END_SCORECARD**"

/-- One line of the markdown-style scorecard (lines 156-166): strip, require a
colon, remove the decoration characters, split on the first colon, record
key and value stripped; later occurrences of a key overwrite earlier ones. -/
def parseScoreLine (m : List (String × String)) (line : List Char) :
    List (String × String) :=
  let l := stripChars line
  if l.contains ':' then
    let l2 := l.filter (fun c => !(c == '*' || c == '[' || c == ']'))
    match breakAtColon l2 with
    | (pre, ':' :: post) =>
      if pre.isEmpty then m
      else dictInsert m (String.mk (stripChars pre)) (String.mk (stripChars post))
    | _ => m
  else m

/-- Python `text.split('\n')`. -/
def splitOnNL : List Char → List (List Char)
  | [] => [[]]
  | c :: t =>
    let r := splitOnNL t
    if c = '\n' then [] :: r
    else
      match r with
      | [] => [[c]]
      | h :: rest => (c :: h) :: rest

def lineParse (sec : List Char) : List (String × String) :=
  (splitOnNL sec).foldl parseScoreLine []

def sectionStartsWithBrace (sec : List Char) : Bool :=
  match stripChars sec with
  | c :: _ => c == lbrace
  | [] => false

/-- Field-section handling (lines 141-177), string-valued model: a section
that starts with the structured-object delimiter is decoded strictly first and
on success returned with the audit text untouched; otherwise the line-oriented
parse runs and the audit text is cleaned by `_clean_kill_list`.  The decode is
the string-valued restriction `jsonLoadsObj`; `parseSectionAndAuditExact`
below uses the faithful decode. -/
def parseSectionAndAudit (sec : List Char) (audit : String) :
    List (String × String) × String :=
  if sectionStartsWithBrace sec then
    match jsonLoadsObj (String.mk sec) with
    | some m => (m, audit)
    | none => (lineParse sec, clean_kill_list audit)
  else (lineParse sec, clean_kill_list audit)

/-- `parse_scorecard` (lines 100-183), string-valued model.  The outer
`try/except` of the source can never fire in this total model; the
marker-missing early return and the line-oriented path are modelled exactly,
while the structured-object path is restricted to string-valued objects —
`parse_scorecard_exact` below models the structured path in full. -/
def parse_scorecard (full_response : String) : List (String × String) × String :=
  match findCI full_response.data SCORECARD_START.data with
  | none => ([], full_response)
  | some i =>
    let rest := full_response.data.drop (i + SCORECARD_START.data.length)
    match findCI rest SCORECARD_END.data with
    | none => parseSectionAndAudit (stripChars rest) ""
    | some j =>
      parseSectionAndAudit (stripChars (rest.take j))
        (String.mk (stripChars (rest.drop (j + SCORECARD_END.data.length))))

/-! ## Document-refinement loop (router_agent_orchestrator.py lines 187-340)

The three collaborators are opaque text functions of exactly the arguments the
source passes: `agentA (prompt, previous_kill_list)`, `reviewer (draft,
previous_kill_list)`, `metaReviewer (draft, scorecard, audit_report)`.

This is the string-scorecard model built on `parse_scorecard`: it covers
every run in which the structured decode, when taken, yields only string
values, so the field access of line 262 always succeeds.  The exact model
`run_refinement_loop_exact` below additionally covers structured scorecards
with non-string values (on which the source raises at line 262 before either
termination check) and the zero-budget diagnostics failure. -/

structure RouterAgents where
  agentA : String → String → String
  reviewer : String → String → String
  metaReviewer : String → List (String × String) → String → String

/-- Data produced by one loop iteration (phases 1-2 plus the parse). -/
structure RoundData where
  draft : String
  response : String
  scorecard : List (String × String)
  audit : String
deriving DecidableEq

/-- The three terminal outcomes of the loop; `success`/`rejected` carry the
1-based iteration at which the loop returned. -/
inductive LoopOutcome where
  | success (round : Nat)
  | rejected (round : Nat)
  | exhausted
deriving DecidableEq

/-- Line 263: `is_rejected = "REJECTED" in full_review_response.upper()`. -/
def isRejected (full_review_response : String) : Bool :=
  pyContains (pyUpper full_review_response) "REJECTED"

/-- Line 262: `scorecard.get("Previous_Kill_List_Fixed", "NO").upper()`. -/
def killListFixed (scorecard : List (String × String)) : String :=
  pyUpper (dictGetD scorecard "Previous_Kill_List_Fixed" "NO")

/-- Phases 1-2 of an iteration: draft, audit, parse (lines 228-254). -/
def roundData (ag : RouterAgents) (prompt killList : String) : RoundData :=
  let draft := ag.agentA prompt killList
  let resp := ag.reviewer draft killList
  ⟨draft, resp, (parse_scorecard resp).1, (parse_scorecard resp).2⟩

/-- Phase 4 (lines 298-311): the Meta-Reviewer produces the next prompt from
the draft, the scorecard and the audit report. -/
def nextPrompt (ag : RouterAgents) (rd : RoundData) : String :=
  ag.metaReviewer rd.draft rd.scorecard rd.audit

/-- The loop of `run_refinement_loop`, instrumented with the outcome and the
per-round trace; `fuel` is the remaining iteration budget and `round` the
1-based index of the next iteration.  Decision order is the source's:
rejection check first (line 269), success check second (line 284), otherwise
carry `audit_report.strip()` as the next kill list (line 296) and loop. -/
def runAux (ag : RouterAgents) : Nat → Nat → String → String → LoopOutcome × List RoundData
  | 0, _, _, _ => (LoopOutcome.exhausted, [])
  | fuel + 1, round, prompt, killList =>
    let rd := roundData ag prompt killList
    if isRejected rd.response = true then (LoopOutcome.rejected round, [rd])
    else if killListFixed rd.scorecard = "YES" then (LoopOutcome.success round, [rd])
    else
      let rest := runAux ag fuel (round + 1) (nextPrompt ag rd) (pyStrip rd.audit)
      (rest.1, rd :: rest.2)

/-- `run_refinement_loop`, instrumented: the outcome plus the round trace.
The trace has one entry per executed iteration, i.e. per Drafter invocation
and per Critic invocation. -/
def run_refinement_loop_instr (ag : RouterAgents) (initial_prompt : String)
    (max_iterations : Nat) : LoopOutcome × List RoundData :=
  runAux ag max_iterations 1 initial_prompt ""

/-- The boolean body of `run_refinement_loop` exactly as the source returns
it: `False` on rejection (line 281), `True` on success (line 291), `False`
when the budget runs out (line 340). -/
def loopBoolAux (ag : RouterAgents) : Nat → String → String → Bool
  | 0, _, _ => false
  | fuel + 1, prompt, killList =>
    let rd := roundData ag prompt killList
    if isRejected rd.response = true then false
    else if killListFixed rd.scorecard = "YES" then true
    else loopBoolAux ag fuel (nextPrompt ag rd) (pyStrip rd.audit)

/-- `run_refinement_loop(agent_a, reviewer, meta_reviewer, initial_prompt,
max_iterations) -> bool` (lines 187-340). -/
def run_refinement_loop (ag : RouterAgents) (initial_prompt : String)
    (max_iterations : Nat) : Bool :=
  loopBoolAux ag max_iterations initial_prompt ""

/-! ## Execution Sandbox (ds_star_agent.py lines 382-429)

The child process itself is operating-system behaviour; it is abstracted as a
`ProcBehavior`: either the process would complete after some wall-clock
duration with a stdout/stderr/exit-status triple, or launching it fails with
a cause.  Persisting the payload file (lines 396-398) is a side effect
outside the pure model. -/

structure ProcResult where
  stdout : String
  stderr : String
  returncode : Int
deriving DecidableEq

inductive ProcBehavior where
  | completes (duration : Nat) (result : ProcResult)
  | launchFailure (cause : String)
deriving DecidableEq

/-- `ExecutionEngine.execute_script` outcome logic (lines 402-429): within the
60-unit timeout, `success = returncode == 0` and `output = stdout + stderr`;
on timeout expiry the fixed diagnostic pair; on any other launch failure the
`"ERROR: <cause>"` pair.  Total: no execution fault escapes. -/
def execute_script (b : ProcBehavior) : Bool × String :=
  match b with
  | ProcBehavior.completes d r =>
    if d ≤ 60 then (r.returncode == 0, r.stdout ++ r.stderr)
    else (false, "ERROR: Script execution timed out")
  | ProcBehavior.launchFailure e => (false, "ERROR: " ++ e)

/-! ## Analysis-refinement loop (ds_star_agent.py lines 155-300 and 658-777) -/

/-- Collaborators of the DS-STAR loop as opaque functions of the arguments the
source passes; `process` gives the child-process behaviour of a generated
script at a given iteration (the operating-system part of the sandbox). -/
structure DSAgents where
  coder : String → String → String
  process : String → Nat → ProcBehavior
  verifierLLM : String → String → String → Bool → String
  routerLLM : String → String → Bool → String
  plannerAdd : Nat → String → String
  plannerCorrect : String → String → Nat → String
  finalyzer : String → String → String

/-- `VerifierAgent.evaluate_sufficiency` verdict computation (lines 496-507):
default `"INSUFFICIENT"`, upgraded iff the evaluation text contains
`"SUFFICIENT"` and not `"INSUFFICIENT"`, both case-insensitively. -/
def evaluate_sufficiency_verdict (evaluation : String) : String :=
  if pyContains (pyUpper evaluation) "SUFFICIENT" = true ∧
      pyContains (pyUpper evaluation) "INSUFFICIENT" = false
  then "SUFFICIENT" else "INSUFFICIENT"

/-- `RouterAgent.decide_action` keyword dispatch on the router LLM's decision
text (lines 566-584): `CORRECT` keyword wins, then `REMOVE`, else the default
ADD; the target index is the literal `0` whenever one is set, and the full
decision text is passed on as feedback. -/
def decide_action (decision : String) : String × Option Nat × String :=
  if pyContains (pyUpper decision) "CORRECT" = true then ("CORRECT_STEP", some 0, decision)
  else if pyContains (pyUpper decision) "REMOVE" = true then ("REMOVE_STEP", some 0, decision)
  else ("ADD_STEP", none, decision)

/-- `PlannerAgent.add_step` (lines 218-253): append the planner LLM's new step
(whose prompt mentions the current plan length) and return it. -/
def add_step (ag : DSAgents) (plan : List String) (feedback : String) :
    List String × String :=
  let s := ag.plannerAdd plan.length feedback
  (plan ++ [s], s)

/-- `PlannerAgent.correct_step` (lines 255-296): an index beyond the current
plan degrades to `add_step` with a warning; otherwise the indexed step is
replaced in place by the planner LLM's corrected step. -/
def correct_step (ag : DSAgents) (plan : List String) (idx : Nat) (feedback : String) :
    List String × String :=
  if plan.length ≤ idx then add_step ag plan feedback
  else
    let s := ag.plannerCorrect (plan.getD idx "") feedback idx
    (plan.set idx s, s)

/-- Python `sep.join(xs)`. -/
def joinWith (sep : String) : List String → String
  | [] => ""
  | [s] => s
  | s :: rest => s ++ sep ++ joinWith sep rest

/-- Ordinal labels `Step i:` for `get_full_plan`, 0-based in list order. -/
def stepLabels : Nat → List String → List String
  | _, [] => []
  | i, s :: t => ("Step " ++ Nat.repr i ++ ":\n" ++ s) :: stepLabels (i + 1) t

/-- `PlannerAgent.get_full_plan` (lines 298-300). -/
def get_full_plan (plan : List String) : String :=
  joinWith "\n\n" (stepLabels 0 plan)

/-- The orchestrator's refinement dispatch (run, lines 759-767): ADD appends,
CORRECT goes through `correct_step` at `step_index or 0`, REMOVE is
unimplemented and falls back to `add_step` with a printed warning. -/
def apply_refinement_action (ag : DSAgents) (plan : List String) (action : String)
    (stepIndex : Option Nat) (feedback currentStep : String) : List String × String :=
  if action = "ADD_STEP" then add_step ag plan feedback
  else if action = "CORRECT_STEP" then correct_step ag plan (stepIndex.getD 0) feedback
  else if action = "REMOVE_STEP" then add_step ag plan feedback
  else (plan, currentStep)

/-- Data produced by one DS-STAR iteration (steps 3, sandbox, 4a). -/
structure DSRound where
  planBefore : List String
  accumulatedPlan : String
  code : String
  execSuccess : Bool
  execResult : String
  evaluation : String
  verdict : String
deriving DecidableEq

/-- Terminal outcomes of `DSStarOrchestrator.run`; `success` carries the
1-based iteration, the Finalyzer's output location, and the code payload and
accumulated plan handed to the Finalyzer (lines 732-750). -/
inductive DSOutcome where
  | success (iteration : Nat) (outputPath finalCode finalPlan : String)
  | exhausted
deriving DecidableEq

/-- One DS-STAR iteration up to the sufficiency verdict (lines 709-729). -/
def dsRoundData (ag : DSAgents) (iteration : Nat) (plan : List String)
    (currentStep : String) : DSRound :=
  let accumulated := get_full_plan plan
  let code := ag.coder currentStep accumulated
  let er := execute_script (ag.process code iteration)
  let evaluation := ag.verifierLLM accumulated code er.2 er.1
  ⟨plan, accumulated, code, er.1, er.2, evaluation, evaluate_sufficiency_verdict evaluation⟩

/-- Step 4b of an iteration (lines 752-767): the Router decides on the
verifier reasoning, and the decision is dispatched onto the plan. -/
def dsNext (ag : DSAgents) (rd : DSRound) (plan : List String) (currentStep : String) :
    List String × String :=
  let dec := decide_action (ag.routerLLM rd.evaluation rd.accumulatedPlan rd.execSuccess)
  apply_refinement_action ag plan dec.1 dec.2.1 dec.2.2 currentStep

/-- The iterative loop of `DSStarOrchestrator.run` (lines 704-777),
instrumented with the outcome and the per-iteration trace. -/
def ds_runAux (ag : DSAgents) : Nat → Nat → List String → String → DSOutcome × List DSRound
  | 0, _, _, _ => (DSOutcome.exhausted, [])
  | fuel + 1, iteration, plan, currentStep =>
    let rd := dsRoundData ag iteration plan currentStep
    if rd.verdict = "SUFFICIENT" then
      (DSOutcome.success iteration (ag.finalyzer rd.code rd.accumulatedPlan)
        rd.code rd.accumulatedPlan, [rd])
    else
      let nxt := dsNext ag rd plan currentStep
      let rest := ds_runAux ag fuel (iteration + 1) nxt.1 nxt.2
      (rest.1, rd :: rest.2)

/-- `DSStarOrchestrator.run` from the point where the initial step exists:
the plan starts as `[initialStep]` and `initialStep` is the current step
(lines 700-704). -/
def ds_star_run (ag : DSAgents) (initialStep : String) (max_iterations : Nat) :
    DSOutcome × List DSRound :=
  ds_runAux ag max_iterations 1 [initialStep] initialStep

/-! ## Default elements for positional trace access -/

def dummyRound : RoundData := ⟨"", "", [], ""⟩

def dummyDSRound : DSRound := ⟨[], "", "", false, "", "", ""⟩

/-! ## Concrete collaborator instances used as evaluation inputs -/

/-- A reviewer whose single response carries both the success token in the
resolved-issues field and the rejection keyword in the free text. -/
def bothSignalsAgents : RouterAgents where
  agentA := fun _ _ => "draft-v1"
  reviewer := fun _ _ =>
    "**REVIEWER_SCORECARD**\nPrevious_Kill_List_Fixed: YES\n**END_SCORECARD**\nThe auditor has REJECTED the document."
  metaReviewer := fun _ _ _ => "next-prompt"

/-- A reviewer that fails round 1 (empty carried kill list) and passes once a
kill list is carried, with no rejection keyword anywhere. -/
def improvingAgents : RouterAgents where
  agentA := fun _ _ => "draft"
  reviewer := fun _ kl =>
    if kl = "" then
      "**REVIEWER_SCORECARD**\nPrevious_Kill_List_Fixed: NO\n**END_SCORECARD**\nFix the intro"
    else
      "**REVIEWER_SCORECARD**\nPrevious_Kill_List_Fixed: YES\n**END_SCORECARD**\nAll good now"
  metaReviewer := fun _ _ _ => "revise"

/-- A reviewer that never emits a scorecard, a success token or the rejection
keyword. -/
def silentAgents : RouterAgents where
  agentA := fun _ _ => "draft"
  reviewer := fun _ _ => "Still reviewing; further work is needed."
  metaReviewer := fun _ _ _ => "revise"

/-- A reviewer that rejects immediately. -/
def rejectingAgents : RouterAgents where
  agentA := fun _ _ => "draft"
  reviewer := fun _ _ => "This document is REJECTED for cause."
  metaReviewer := fun _ _ _ => "revise"

/-- A verifier that declares sufficiency at once. -/
def dsSufficientAgents : DSAgents where
  coder := fun _ _ => "print(1)"
  process := fun _ _ => ProcBehavior.completes 1 ⟨"1\n", "", 0⟩
  verifierLLM := fun _ _ _ _ => "The analysis is SUFFICIENT for the task."
  routerLLM := fun _ _ _ => "no action"
  plannerAdd := fun n _ => "step-" ++ Nat.repr n
  plannerCorrect := fun _ _ _ => "corrected-step"
  finalyzer := fun _ _ => "./ds_star_output"

/-- A verifier that never declares sufficiency and a router that always picks
the default ADD action. -/
def dsAddingAgents : DSAgents where
  coder := fun _ _ => "print(1)"
  process := fun _ _ => ProcBehavior.completes 1 ⟨"", "boom", 1⟩
  verifierLLM := fun _ _ _ _ => "Coverage INSUFFICIENT so far."
  routerLLM := fun _ _ _ => "extend the plan with another step"
  plannerAdd := fun n _ => "step-" ++ Nat.repr n
  plannerCorrect := fun _ _ _ => "corrected-step"
  finalyzer := fun _ _ => "./ds_star_output"

/-- The critic text of the C4 counterexample: markers present, the field
section is a malformed structured object, and feedback follows the end
marker. -/
def cexScorecardInput : String :=
  "**REVIEWER_SCORECARD**\n\x7b Oops: yes\n**END_SCORECARD**\nRemaining feedback"

/-! ## Exact structured-object decode (`json.loads`)

JSON values as Python's decoder returns them.  Numbers are kept as their
source literal: the loop never computes with a number — a numeric value can
only flow into the line-262 field access (where any non-string raises) or
into the strategist's prompt (an opaque function in this model).  `NaN`,
`Infinity` and `-Infinity` are accepted, as Python's default decoder does.
Astral characters escaped as surrogate pairs are outside the one-`Char`-per-
code-point idealization; no repository text uses them. -/

inductive JValue where
  | str (s : String)
  | num (lit : String)
  | bool (b : Bool)
  | null
  | arr (elems : List JValue)
  | obj (members : List (String × JValue))

/-- Python-dict insertion for decoded object members: later duplicate keys
overwrite the value at the first key's position (checked against CPython). -/
def jdictInsert (m : List (String × JValue)) (k : String) (v : JValue) :
    List (String × JValue) :=
  if m.any (fun p => p.1 == k) then
    m.map (fun p => if p.1 == k then (p.1, v) else p)
  else m ++ [(k, v)]

def expectLit (lit cs : List Char) : Option (List Char) :=
  if lit.isPrefixOf cs then some (cs.drop lit.length) else none

/-- Optional JSON fraction part: `.` followed by one or more digits. -/
def jparseFracOpt (cs : List Char) : Option (List Char × List Char) :=
  match cs with
  | '.' :: t =>
    let ds := t.takeWhile Char.isDigit
    if ds.isEmpty then none
    else some ('.' :: ds, t.drop ds.length)
  | _ => some ([], cs)

/-- Optional JSON exponent part: `e`/`E`, an optional sign, one or more
digits. -/
def jparseExpOpt (cs : List Char) : Option (List Char × List Char) :=
  match cs with
  | [] => some ([], [])
  | c :: t =>
    if c = 'e' ∨ c = 'E' then
      match t with
      | [] => none
      | s :: t2 =>
        if s = '+' ∨ s = '-' then
          let ds := t2.takeWhile Char.isDigit
          if ds.isEmpty then none else some (c :: s :: ds, t2.drop ds.length)
        else
          let ds := t.takeWhile Char.isDigit
          if ds.isEmpty then none else some (c :: ds, t.drop ds.length)
    else some ([], c :: t)

/-- JSON number: `-? (0 | [1-9][0-9]*) frac? exp?`; returns the literal and
the remainder. -/
def jparseNumber (cs : List Char) : Option (List Char × List Char) :=
  let head : List Char × List Char :=
    match cs with
    | '-' :: t => (['-'], t)
    | _ => ([], cs)
  match head.2 with
  | [] => none
  | c :: t =>
    if c = '0' then
      match jparseFracOpt t with
      | none => none
      | some (f, r2) =>
        match jparseExpOpt r2 with
        | none => none
        | some (e, r3) => some (head.1 ++ ['0'] ++ f ++ e, r3)
    else if c.isDigit then
      let ds := (c :: t).takeWhile Char.isDigit
      match jparseFracOpt ((c :: t).drop ds.length) with
      | none => none
      | some (f, r2) =>
        match jparseExpOpt r2 with
        | none => none
        | some (e, r3) => some (head.1 ++ ds ++ f ++ e, r3)
    else none

mutual

/-- A JSON value (object, array, string, number, boolean, null, or one of the
non-standard constants Python accepts), with leading whitespace. -/
def jparseValue : Nat → List Char → Option (JValue × List Char)
  | 0, _ => none
  | fuel + 1, cs =>
    match skipWs cs with
    | [] => none
    | c :: t =>
      if c = '"' then
        (parseJStrAux (t.length + 1) t).map (fun p => (JValue.str (String.mk p.1), p.2))
      else if c = lbrace then jparseMembers fuel (skipWs t) [] true
      else if c = '[' then jparseElems fuel (skipWs t) [] true
      else if c = 't' then (expectLit "rue".data t).map (fun r => (JValue.bool true, r))
      else if c = 'f' then (expectLit "alse".data t).map (fun r => (JValue.bool false, r))
      else if c = 'n' then (expectLit "ull".data t).map (fun r => (JValue.null, r))
      else if c = 'N' then (expectLit "aN".data t).map (fun r => (JValue.num "NaN", r))
      else if c = 'I' then
        (expectLit "nfinity".data t).map (fun r => (JValue.num "Infinity", r))
      else if c = '-' then
        match t with
        | 'I' :: t2 =>
          (expectLit "nfinity".data t2).map (fun r => (JValue.num "-Infinity", r))
        | _ => (jparseNumber (c :: t)).map (fun p => (JValue.num (String.mk p.1), p.2))
      else (jparseNumber (c :: t)).map (fun p => (JValue.num (String.mk p.1), p.2))

/-- Members of a JSON object after the opening brace (whitespace skipped);
`first` tracks whether an immediate closing brace is legal. -/
def jparseMembers : Nat → List Char → List (String × JValue) → Bool →
    Option (JValue × List Char)
  | 0, _, _, _ => none
  | fuel + 1, cs, acc, first =>
    match cs with
    | [] => none
    | c :: t =>
      if first && (c == rbrace) then some (JValue.obj acc, t)
      else if c = '"' then
        match parseJStrAux (t.length + 1) t with
        | none => none
        | some (k, r1) =>
          match skipWs r1 with
          | ':' :: r2 =>
            match jparseValue fuel r2 with
            | none => none
            | some (v, r3) =>
              let acc2 := jdictInsert acc (String.mk k) v
              match skipWs r3 with
              | ',' :: r4 => jparseMembers fuel (skipWs r4) acc2 false
              | c2 :: r4 => if c2 = rbrace then some (JValue.obj acc2, r4) else none
              | [] => none
          | _ => none
      else none

/-- Elements of a JSON array after the opening bracket (whitespace skipped). -/
def jparseElems : Nat → List Char → List JValue → Bool → Option (JValue × List Char)
  | 0, _, _, _ => none
  | fuel + 1, cs, acc, first =>
    match cs with
    | [] => none
    | c :: t =>
      if first && (c == ']') then some (JValue.arr acc.reverse, t)
      else
        match jparseValue fuel (c :: t) with
        | none => none
        | some (v, r1) =>
          match skipWs r1 with
          | ',' :: r2 => jparseElems fuel (skipWs r2) (v :: acc) false
          | ']' :: r2 => some (JValue.arr (v :: acc).reverse, r2)
          | _ => none

end

/-- The exact `json.loads` call of `parse_scorecard` line 148: the section is
only decoded when it starts with the object delimiter, so success means a
top-level object; trailing garbage is rejected.  Every two units of fuel
consume at least one character, so `2 * length + 2` always suffices. -/
def json_loads_exact (s : String) : Option (List (String × JValue)) :=
  match jparseValue (2 * s.data.length + 2) s.data with
  | some (JValue.obj m, rest) => if skipWs rest = [] then some m else none
  | _ => none

/-! ## Exact Status Parser and document-refinement loop

Same skeleton as the string-valued model, with the structured-object decode
replaced by the exact one and the two uncaught exceptions of the source made
explicit terminal outcomes. -/

/-- The line-oriented parse produces string field values. -/
def lineParseJ (sec : List Char) : List (String × JValue) :=
  (lineParse sec).map (fun p => (p.1, JValue.str p.2))

/-- Field-section handling of `parse_scorecard` (lines 141-177) with the
exact structured-object decode: on decode success the object is returned as
decoded (values of any JSON shape, audit text untouched); on decode failure
the line-oriented fallback runs and the audit text is cleaned. -/
def parseSectionAndAuditExact (sec : List Char) (audit : String) :
    List (String × JValue) × String :=
  if sectionStartsWithBrace sec then
    match json_loads_exact (String.mk sec) with
    | some m => (m, audit)
    | none => (lineParseJ sec, clean_kill_list audit)
  else (lineParseJ sec, clean_kill_list audit)

/-- `parse_scorecard` (lines 100-183) with the exact structured-object
decode. -/
def parse_scorecard_exact (full_response : String) : List (String × JValue) × String :=
  match findCI full_response.data SCORECARD_START.data with
  | none => ([], full_response)
  | some i =>
    let rest := full_response.data.drop (i + SCORECARD_START.data.length)
    match findCI rest SCORECARD_END.data with
    | none => parseSectionAndAuditExact (stripChars rest) ""
    | some j =>
      parseSectionAndAuditExact (stripChars (rest.take j))
        (String.mk (stripChars (rest.drop (j + SCORECARD_END.data.length))))

structure RouterAgentsExact where
  agentA : String → String → String
  reviewer : String → String → String
  metaReviewer : String → List (String × JValue) → String → String

structure RoundDataExact where
  draft : String
  response : String
  scorecard : List (String × JValue)
  audit : String

/-- Terminal behaviours of the source loop, the uncaught exceptions
included: `attrError r` is the `AttributeError` of line 262 raised at round
`r` on a non-string resolved-issues value; `nameError` is the
`NameError`/`UnboundLocalError` of the post-loop diagnostics (line 329,
`full_review_response` never assigned) when the budget is zero and no round
ever ran. -/
inductive LoopOutcomeExact where
  | success (round : Nat)
  | rejected (round : Nat)
  | exhausted
  | attrError (round : Nat)
  | nameError
deriving DecidableEq

/-- Line 262, `scorecard.get("Previous_Kill_List_Fixed", "NO").upper()`,
before the case normalization: the missing key yields the string default
`"NO"`; a present string value is returned; a present non-string value has no
`upper` attribute, so the access raises — modelled as `none`. -/
def resolvedIssuesValue (scorecard : List (String × JValue)) : Option String :=
  match scorecard.find? (fun p => p.1 == "Previous_Kill_List_Fixed") with
  | none => some "NO"
  | some p =>
    match p.2 with
    | JValue.str s => some s
    | _ => none

/-- Phases 1-2 of an iteration (lines 228-254) in the exact model. -/
def roundDataExact (ag : RouterAgentsExact) (prompt killList : String) : RoundDataExact :=
  let draft := ag.agentA prompt killList
  let resp := ag.reviewer draft killList
  ⟨draft, resp, (parse_scorecard_exact resp).1, (parse_scorecard_exact resp).2⟩

/-- Phase 4 (lines 298-311) in the exact model. -/
def nextPromptExact (ag : RouterAgentsExact) (rd : RoundDataExact) : String :=
  ag.metaReviewer rd.draft rd.scorecard rd.audit

/-- The loop of `run_refinement_loop` in the exact model.  Line order within
a round: the field access of line 262 runs first and raises on a non-string
value, before the rejection check of line 269 and the success check of line
284. -/
def runAuxExact (ag : RouterAgentsExact) :
    Nat → Nat → String → String → LoopOutcomeExact × List RoundDataExact
  | 0, _, _, _ => (LoopOutcomeExact.exhausted, [])
  | fuel + 1, round, prompt, killList =>
    let rd := roundDataExact ag prompt killList
    match resolvedIssuesValue rd.scorecard with
    | none => (LoopOutcomeExact.attrError round, [rd])
    | some v =>
      if isRejected rd.response = true then (LoopOutcomeExact.rejected round, [rd])
      else if pyUpper v = "YES" then (LoopOutcomeExact.success round, [rd])
      else
        let rest := runAuxExact ag fuel (round + 1) (nextPromptExact ag rd) (pyStrip rd.audit)
        (rest.1, rd :: rest.2)

/-- `run_refinement_loop` in the exact model: with a zero budget the loop
body never runs and the post-loop diagnostics raise before returning; with a
positive budget the loop runs and, on plain exhaustion, the diagnostics
succeed (all their locals were assigned in the final round). -/
def run_refinement_loop_exact (ag : RouterAgentsExact) (initial_prompt : String)
    (max_iterations : Nat) : LoopOutcomeExact × List RoundDataExact :=
  if max_iterations = 0 then (LoopOutcomeExact.nameError, [])
  else runAuxExact ag max_iterations 1 initial_prompt ""

def dummyRoundExact : RoundDataExact := ⟨"", "", [], ""⟩

/-! ## Concrete collaborator instances for the exact model -/

/-- Same reviewer texts as `bothSignalsAgents`, typed for the exact model. -/
def bothSignalsAgentsExact : RouterAgentsExact where
  agentA := fun _ _ => "draft-v1"
  reviewer := fun _ _ =>
    "**REVIEWER_SCORECARD**\nPrevious_Kill_List_Fixed: YES\n**END_SCORECARD**\nThe auditor has REJECTED the document."
  metaReviewer := fun _ _ _ => "next-prompt"

/-- Same reviewer texts as `silentAgents`, typed for the exact model. -/
def silentAgentsExact : RouterAgentsExact where
  agentA := fun _ _ => "draft"
  reviewer := fun _ _ => "Still reviewing; further work is needed."
  metaReviewer := fun _ _ _ => "revise"

/-- A reviewer whose structured scorecard carries the boolean `true` — not a
string — as the resolved-issues value, with the rejection keyword in the free
text. -/
def boolValueRejectAgents : RouterAgentsExact where
  agentA := fun _ _ => "draft"
  reviewer := fun _ _ =>
    "**REVIEWER_SCORECARD**\n\x7b\"Previous_Kill_List_Fixed\": true\x7d\n**END_SCORECARD**\nREJECTED"
  metaReviewer := fun _ _ _ => "revise"

/-- A reviewer whose structured scorecard carries the boolean `true` as the
resolved-issues value and whose text has no rejection keyword. -/
def boolValueContinueAgents : RouterAgentsExact where
  agentA := fun _ _ => "draft"
  reviewer := fun _ _ =>
    "**REVIEWER_SCORECARD**\n\x7b\"Previous_Kill_List_Fixed\": true\x7d\n**END_SCORECARD**\nThe plan is still incomplete."
  metaReviewer := fun _ _ _ => "revise"

/-! ## Theorems -/

/-! ## Helper lemmas about the document-refinement loop -/

theorem runAux_succ_length_pos (ag : RouterAgents) (n round : Nat) (p k : String) :
    0 < (runAux ag (n + 1) round p k).2.length := by
  by_cases h1 : isRejected (roundData ag p k).response = true
  · simp [runAux, h1]
  · by_cases h2 : killListFixed (roundData ag p k).scorecard = "YES"
    · simp [runAux, h1, h2]
    · simp [runAux, h1, h2]

theorem runAux_succ_getD_zero (ag : RouterAgents) (n round : Nat) (p k : String) :
    (runAux ag (n + 1) round p k).2.getD 0 dummyRound = roundData ag p k := by
  by_cases h1 : isRejected (roundData ag p k).response = true
  · simp [runAux, h1]
  · by_cases h2 : killListFixed (roundData ag p k).scorecard = "YES"
    · simp [runAux, h1, h2]
    · simp [runAux, h1, h2]

theorem runAux_success_at (ag : RouterAgents) :
    ∀ (fuel round : Nat) (p k : String) (i : Nat),
      i < (runAux ag fuel round p k).2.length →
      isRejected (((runAux ag fuel round p k).2.getD i dummyRound).response) = false →
      killListFixed (((runAux ag fuel round p k).2.getD i dummyRound).scorecard) = "YES" →
      (runAux ag fuel round p k).1 = LoopOutcome.success (round + i) ∧
      (runAux ag fuel round p k).2.length = i + 1 := by
  intro fuel
  induction fuel with
  | zero => intro round p k i h; simp [runAux] at h
  | succ n ih =>
    intro round p k i h hnr hfix
    by_cases h1 : isRejected (roundData ag p k).response = true
    · have hi : i = 0 := by
        have hlen : (runAux ag (n + 1) round p k).2.length = 1 := by
          simp [runAux, h1]
        rw [hlen] at h; omega
      subst hi
      rw [runAux_succ_getD_zero] at hnr
      rw [h1] at hnr
      exact absurd hnr (by simp)
    · by_cases h2 : killListFixed (roundData ag p k).scorecard = "YES"
      · have hlen : (runAux ag (n + 1) round p k).2.length = 1 := by
          simp [runAux, h1, h2]
        have hi : i = 0 := by rw [hlen] at h; omega
        subst hi
        refine ⟨?_, hlen⟩
        simp [runAux, h1, h2]
      · have heq : runAux ag (n + 1) round p k =
            ((runAux ag n (round + 1) (nextPrompt ag (roundData ag p k))
                (pyStrip (roundData ag p k).audit)).1,
              roundData ag p k ::
                (runAux ag n (round + 1) (nextPrompt ag (roundData ag p k))
                  (pyStrip (roundData ag p k).audit)).2) := by
          simp [runAux, h1, h2]
        cases i with
        | zero =>
          rw [runAux_succ_getD_zero] at hfix
          exact absurd hfix h2
        | succ j =>
          rw [heq] at h hnr hfix ⊢
          simp only [List.length_cons, List.getD_cons_succ] at h hnr hfix ⊢
          have hj : j < (runAux ag n (round + 1) (nextPrompt ag (roundData ag p k))
              (pyStrip (roundData ag p k).audit)).2.length := by omega
          obtain ⟨ho, hl⟩ := ih (round + 1) (nextPrompt ag (roundData ag p k))
            (pyStrip (roundData ag p k).audit) j hj hnr hfix
          refine ⟨?_, by omega⟩
          have harith : round + 1 + j = round + (j + 1) := by omega
          rw [← harith]
          exact ho

theorem loopBoolAux_eq_success (ag : RouterAgents) :
    ∀ (fuel round : Nat) (p k : String),
      loopBoolAux ag fuel p k = true ↔
      ∃ r, (runAux ag fuel round p k).1 = LoopOutcome.success r := by
  intro fuel
  induction fuel with
  | zero => intro round p k; simp [loopBoolAux, runAux]
  | succ n ih =>
    intro round p k
    by_cases h1 : isRejected (roundData ag p k).response = true
    · simp [loopBoolAux, runAux, h1]
    · by_cases h2 : killListFixed (roundData ag p k).scorecard = "YES"
      · simp [loopBoolAux, runAux, h1, h2]
      · simp only [loopBoolAux, runAux, h1, h2, if_false, if_true]
        simp only [Bool.false_eq_true, if_false]
        exact ih (round + 1) (nextPrompt ag (roundData ag p k))
          (pyStrip (roundData ag p k).audit)

/-! ## Claim theorems: document-refinement loop -/

/-- C2: any round whose raw critic text lacks the rejection keyword and whose
parsed resolved-issues field, case-normalized, equals the success token
terminates the loop at that round with outcome SUCCESS, running no further
rounds. -/
theorem success_token_terminates_round (ag : RouterAgents) (p : String) (m i : Nat)
    (h : i < (run_refinement_loop_instr ag p m).2.length)
    (hnr : isRejected (((run_refinement_loop_instr ag p m).2.getD i dummyRound).response)
      = false)
    (hfix : killListFixed (((run_refinement_loop_instr ag p m).2.getD i dummyRound).scorecard)
      = "YES") :
    (run_refinement_loop_instr ag p m).1 = LoopOutcome.success (i + 1) ∧
    (run_refinement_loop_instr ag p m).2.length = i + 1 := by
  obtain ⟨ho, hl⟩ := runAux_success_at ag m 1 p "" i h hnr hfix
  refine ⟨?_, hl⟩
  have harith : 1 + i = i + 1 := by omega
  rw [← harith]
  exact ho

/-- Witness for C2: a reviewer that fails round 1 and reports the success
token with no rejection keyword in round 2; the loop ends SUCCESS at round 2
exactly. -/
theorem success_token_terminates_round_witness :
    (run_refinement_loop_instr improvingAgents "p0" 5).1 = LoopOutcome.success 2 ∧
    (run_refinement_loop_instr improvingAgents "p0" 5).2.length = 2 :=
  success_token_terminates_round improvingAgents "p0" 5 1 (by decide) (by decide) (by decide)

/-- C9 counterexample: a run that is rejected at round 1 and a run that
exhausts the budget produce the same return value of
`run_refinement_loop` (`false`), so the caller cannot distinguish the
REJECTED and EXHAUSTED outcomes from the return value, which also carries no
candidate artifact or diagnostic trace. -/
theorem outcomes_conflated_counterexample :
    (run_refinement_loop_instr rejectingAgents "p0" 5).1 = LoopOutcome.rejected 1 ∧
    (run_refinement_loop_instr silentAgents "p0" 5).1 = LoopOutcome.exhausted ∧
    run_refinement_loop rejectingAgents "p0" 5 = run_refinement_loop silentAgents "p0" 5 :=
  ⟨by decide, by decide, by decide⟩

/-- C9 amended: the boolean return value of `run_refinement_loop`
distinguishes exactly SUCCESS from the other two outcomes — it is `true`
precisely when the loop outcome is SUCCESS at some round — while REJECTED and
EXHAUSTED both map to `false`. -/
theorem return_value_distinguishes_success_only (ag : RouterAgents) (p : String) (m : Nat) :
    run_refinement_loop ag p m = true ↔
    ∃ r, (run_refinement_loop_instr ag p m).1 = LoopOutcome.success r :=
  loopBoolAux_eq_success ag m 1 p ""

/-! ## Claim theorems: Status Parser and Execution Sandbox -/

/-- C4 counterexample: on an input whose field section is a malformed
structured object (a decode error), `parse_scorecard` does not return the
empty field map with the entire input as feedback — it falls back to
line-oriented parsing, yielding a non-empty field map and only the text after
the end marker as feedback. -/
theorem decode_error_falls_back_counterexample :
    parse_scorecard cexScorecardInput = ([("\x7b Oops", "yes")], "Remaining feedback") ∧
    parse_scorecard cexScorecardInput ≠ ([], cexScorecardInput) :=
  ⟨by decide, by decide⟩

/-- C4 amended: `parse_scorecard` is total — every input yields a (field map,
feedback) pair — and whenever the start marker has no case-insensitive
occurrence in the input it returns the empty field map together with the
entire input as feedback; a malformed structured object instead falls back to
line-oriented parsing of the field section (see the counterexample). -/
theorem missing_marker_degrades_gracefully (s : String)
    (h : findCI s.data SCORECARD_START.data = none) :
    parse_scorecard s = ([], s) := by
  simp [parse_scorecard, h]

/-- Witness for the amended C4 on a concrete marker-free input. -/
theorem missing_marker_degrades_gracefully_witness :
    parse_scorecard "free-form critic text with no markers" =
      ([], "free-form critic text with no markers") :=
  missing_marker_degrades_gracefully "free-form critic text with no markers" (by decide)

/-- C6: for a child process that completes within the 60-unit timeout, the
sandbox reports success exactly when the exit status is zero, and the
combined output is standard output followed by standard error regardless of
the exit status. -/
theorem sandbox_completed_contract (d : Nat) (r : ProcResult) (h : d ≤ 60) :
    ((execute_script (ProcBehavior.completes d r)).1 = true ↔ r.returncode = 0) ∧
    (execute_script (ProcBehavior.completes d r)).2 = r.stdout ++ r.stderr := by
  simp [execute_script, h]

/-- Witness for C6 at a concrete completed process. -/
theorem sandbox_completed_contract_witness :
    ((execute_script (ProcBehavior.completes 1 ⟨"out", "err", 0⟩)).1 = true ↔
      (0 : Int) = 0) ∧
    (execute_script (ProcBehavior.completes 1 ⟨"out", "err", 0⟩)).2 = "outerr" :=
  sandbox_completed_contract 1 ⟨"out", "err", 0⟩ (by decide)

/-- C7: the sandbox never lets an execution fault escape — a process
exceeding the fixed 60-unit wall-clock timeout yields
`(false, "ERROR: Script execution timed out")`, and any execution-launch
failure yields `(false, "ERROR: " ++ cause)`. -/
theorem sandbox_fault_contract (d : Nat) (r : ProcResult) (e : String) (h : 60 < d) :
    execute_script (ProcBehavior.completes d r) =
      (false, "ERROR: Script execution timed out") ∧
    execute_script (ProcBehavior.launchFailure e) = (false, "ERROR: " ++ e) := by
  have hn : ¬ (d ≤ 60) := by omega
  constructor
  · simp [execute_script, hn]
  · simp [execute_script]

/-- Witness for C7 at a concrete timeout and a concrete launch failure. -/
theorem sandbox_fault_contract_witness :
    execute_script (ProcBehavior.completes 61 ⟨"", "", 0⟩) =
      (false, "ERROR: Script execution timed out") ∧
    execute_script (ProcBehavior.launchFailure "No such file or directory") =
      (false, "ERROR: No such file or directory") :=
  sandbox_fault_contract 61 ⟨"", "", 0⟩ "No such file or directory" (by decide)

/-! ## Helper lemmas about the analysis-refinement loop -/

theorem verdict_sufficient_iff (e : String) :
    evaluate_sufficiency_verdict e = "SUFFICIENT" ↔
      (pyContains (pyUpper e) "SUFFICIENT" = true ∧
        pyContains (pyUpper e) "INSUFFICIENT" = false) := by
  by_cases hc : pyContains (pyUpper e) "SUFFICIENT" = true ∧
      pyContains (pyUpper e) "INSUFFICIENT" = false
  · simp [evaluate_sufficiency_verdict, hc]
  · rw [evaluate_sufficiency_verdict, if_neg hc]
    constructor
    · intro habs; exact absurd habs (by decide)
    · intro habs; exact absurd habs hc

theorem dsRoundData_verdict (ag : DSAgents) (it : Nat) (plan : List String) (cs : String) :
    (dsRoundData ag it plan cs).verdict =
      evaluate_sufficiency_verdict ((dsRoundData ag it plan cs).evaluation) := by
  simp [dsRoundData]

theorem dsRoundData_planBefore (ag : DSAgents) (it : Nat) (plan : List String) (cs : String) :
    (dsRoundData ag it plan cs).planBefore = plan := by
  simp [dsRoundData]

theorem ds_runAux_succ_length_pos (ag : DSAgents) (n it : Nat) (plan : List String)
    (cs : String) : 0 < (ds_runAux ag (n + 1) it plan cs).2.length := by
  by_cases hv : (dsRoundData ag it plan cs).verdict = "SUFFICIENT"
  · simp [ds_runAux, hv]
  · simp [ds_runAux, hv]

theorem ds_runAux_succ_getD_zero (ag : DSAgents) (n it : Nat) (plan : List String)
    (cs : String) :
    (ds_runAux ag (n + 1) it plan cs).2.getD 0 dummyDSRound = dsRoundData ag it plan cs := by
  by_cases hv : (dsRoundData ag it plan cs).verdict = "SUFFICIENT"
  · simp [ds_runAux, hv]
  · simp [ds_runAux, hv]

theorem ds_runAux_succ_sufficient (ag : DSAgents) (n it : Nat) (plan : List String)
    (cs : String) (hv : (dsRoundData ag it plan cs).verdict = "SUFFICIENT") :
    ds_runAux ag (n + 1) it plan cs =
      (DSOutcome.success it
        (ag.finalyzer (dsRoundData ag it plan cs).code
          (dsRoundData ag it plan cs).accumulatedPlan)
        (dsRoundData ag it plan cs).code (dsRoundData ag it plan cs).accumulatedPlan,
      [dsRoundData ag it plan cs]) := by
  simp [ds_runAux, hv]

theorem ds_runAux_succ_continue (ag : DSAgents) (n it : Nat) (plan : List String)
    (cs : String) (hv : ¬ (dsRoundData ag it plan cs).verdict = "SUFFICIENT") :
    ds_runAux ag (n + 1) it plan cs =
      ((ds_runAux ag n (it + 1)
          (dsNext ag (dsRoundData ag it plan cs) plan cs).1
          (dsNext ag (dsRoundData ag it plan cs) plan cs).2).1,
        dsRoundData ag it plan cs ::
          (ds_runAux ag n (it + 1)
            (dsNext ag (dsRoundData ag it plan cs) plan cs).1
            (dsNext ag (dsRoundData ag it plan cs) plan cs).2).2) := by
  simp [ds_runAux, hv]

theorem ds_runAux_success_round_ge (ag : DSAgents) :
    ∀ (fuel it : Nat) (plan : List String) (cs : String) (j : Nat) (fp c a : String),
      (ds_runAux ag fuel it plan cs).1 = DSOutcome.success j fp c a → it ≤ j := by
  intro fuel
  induction fuel with
  | zero => intro it plan cs j fp c a h; simp [ds_runAux] at h
  | succ n ih =>
    intro it plan cs j fp c a h
    by_cases hv : (dsRoundData ag it plan cs).verdict = "SUFFICIENT"
    · rw [ds_runAux_succ_sufficient ag n it plan cs hv] at h
      cases h
      omega
    · rw [ds_runAux_succ_continue ag n it plan cs hv] at h
      have := ih _ _ _ _ _ _ _ h
      omega

theorem ds_runAux_sufficiency_at (ag : DSAgents) :
    ∀ (fuel it : Nat) (plan : List String) (cs : String) (i : Nat),
      i < (ds_runAux ag fuel it plan cs).2.length →
      ((pyContains (pyUpper (((ds_runAux ag fuel it plan cs).2.getD i
            dummyDSRound).evaluation)) "SUFFICIENT" = true ∧
        pyContains (pyUpper (((ds_runAux ag fuel it plan cs).2.getD i
            dummyDSRound).evaluation)) "INSUFFICIENT" = false) ↔
        ((ds_runAux ag fuel it plan cs).1 =
          DSOutcome.success (it + i)
            (ag.finalyzer (((ds_runAux ag fuel it plan cs).2.getD i dummyDSRound).code)
              (((ds_runAux ag fuel it plan cs).2.getD i dummyDSRound).accumulatedPlan))
            (((ds_runAux ag fuel it plan cs).2.getD i dummyDSRound).code)
            (((ds_runAux ag fuel it plan cs).2.getD i dummyDSRound).accumulatedPlan) ∧
          (ds_runAux ag fuel it plan cs).2.length = i + 1)) := by
  intro fuel
  induction fuel with
  | zero => intro it plan cs i h; simp [ds_runAux] at h
  | succ n ih =>
    intro it plan cs i h
    by_cases hv : (dsRoundData ag it plan cs).verdict = "SUFFICIENT"
    · have hi : i = 0 := by
        rw [ds_runAux_succ_sufficient ag n it plan cs hv] at h
        simp at h
        omega
      subst hi
      have hcond := (verdict_sufficient_iff ((dsRoundData ag it plan cs).evaluation)).mp
        (by rw [← dsRoundData_verdict]; exact hv)
      rw [ds_runAux_succ_sufficient ag n it plan cs hv]
      simp [hcond]
    · rw [ds_runAux_succ_continue ag n it plan cs hv] at h ⊢
      cases i with
      | zero =>
        simp only [List.getD_cons_zero, List.length_cons]
        constructor
        · intro hcond
          have : (dsRoundData ag it plan cs).verdict = "SUFFICIENT" := by
            rw [dsRoundData_verdict]
            exact (verdict_sufficient_iff _).mpr hcond
          exact absurd this hv
        · intro hr
          have hge := ds_runAux_success_round_ge ag n (it + 1)
            (dsNext ag (dsRoundData ag it plan cs) plan cs).1
            (dsNext ag (dsRoundData ag it plan cs) plan cs).2 _ _ _ _ hr.1
          omega
      | succ j =>
        simp only [List.getD_cons_succ, List.length_cons] at h ⊢
        have hj : j < (ds_runAux ag n (it + 1)
            (dsNext ag (dsRoundData ag it plan cs) plan cs).1
            (dsNext ag (dsRoundData ag it plan cs) plan cs).2).2.length := by omega
        have hiff := ih (it + 1) (dsNext ag (dsRoundData ag it plan cs) plan cs).1
          (dsNext ag (dsRoundData ag it plan cs) plan cs).2 j hj
        have harith : it + 1 + j = it + (j + 1) := by omega
        rw [harith] at hiff
        constructor
        · intro hcond
          obtain ⟨ho, hl⟩ := hiff.mp hcond
          exact ⟨ho, by omega⟩
        · intro hr
          exact hiff.mpr ⟨hr.1, by omega⟩

/-! ## Claim theorems: analysis-refinement loop -/

/-- C5: a round of the analysis-refinement loop terminates with outcome
SUCCESS — handing the round's code payload and accumulated plan to the
Finalizer and ending the trace at that round — if and only if the round's
verdict text contains the positive-sufficiency token and does not contain the
negative-sufficiency token, both as case-insensitive substrings. -/
theorem sufficiency_iff_success (ag : DSAgents) (s0 : String) (m i : Nat)
    (h : i < (ds_star_run ag s0 m).2.length) :
    (pyContains (pyUpper (((ds_star_run ag s0 m).2.getD i dummyDSRound).evaluation))
        "SUFFICIENT" = true ∧
      pyContains (pyUpper (((ds_star_run ag s0 m).2.getD i dummyDSRound).evaluation))
        "INSUFFICIENT" = false) ↔
      ((ds_star_run ag s0 m).1 =
        DSOutcome.success (i + 1)
          (ag.finalyzer (((ds_star_run ag s0 m).2.getD i dummyDSRound).code)
            (((ds_star_run ag s0 m).2.getD i dummyDSRound).accumulatedPlan))
          (((ds_star_run ag s0 m).2.getD i dummyDSRound).code)
          (((ds_star_run ag s0 m).2.getD i dummyDSRound).accumulatedPlan) ∧
        (ds_star_run ag s0 m).2.length = i + 1) := by
  have hiff := ds_runAux_sufficiency_at ag m 1 [s0] s0 i h
  have harith : 1 + i = i + 1 := by omega
  rw [harith] at hiff
  exact hiff

/-- Witness for C5: a verifier that immediately signals sufficiency makes the
loop succeed at round 1, handing the round's code and single-step plan to the
Finalizer. -/
theorem sufficiency_iff_success_witness :
    (ds_star_run dsSufficientAgents "s0" 4).1 =
      DSOutcome.success 1 "./ds_star_output" "print(1)" "Step 0:\ns0" ∧
    (ds_star_run dsSufficientAgents "s0" 4).2.length = 1 :=
  (sufficiency_iff_success dsSufficientAgents "s0" 4 0 (by decide)).mp
    ⟨by decide, by decide⟩

theorem dsNext_appends_or_sets (ag : DSAgents) (rd : DSRound) (plan : List String)
    (cs : String) :
    (∃ x, (dsNext ag rd plan cs).1 = plan ++ [x]) ∨
    (∃ j x, j < plan.length ∧ (dsNext ag rd plan cs).1 = plan.set j x) := by
  by_cases hc : pyContains
      (pyUpper (ag.routerLLM rd.evaluation rd.accumulatedPlan rd.execSuccess)) "CORRECT" = true
  · cases plan with
    | nil =>
      left
      refine ⟨ag.plannerAdd 0 (ag.routerLLM rd.evaluation rd.accumulatedPlan rd.execSuccess), ?_⟩
      simp [dsNext, decide_action, hc, apply_refinement_action, correct_step, add_step]
    | cons a t =>
      right
      refine ⟨0, ag.plannerCorrect ((a :: t).getD 0 "")
        (ag.routerLLM rd.evaluation rd.accumulatedPlan rd.execSuccess) 0, by simp, ?_⟩
      simp [dsNext, decide_action, hc, apply_refinement_action, correct_step]
  · by_cases hr : pyContains
        (pyUpper (ag.routerLLM rd.evaluation rd.accumulatedPlan rd.execSuccess)) "REMOVE" = true
    · left
      refine ⟨ag.plannerAdd plan.length
        (ag.routerLLM rd.evaluation rd.accumulatedPlan rd.execSuccess), ?_⟩
      simp [dsNext, decide_action, hc, hr, apply_refinement_action, add_step]
    · left
      refine ⟨ag.plannerAdd plan.length
        (ag.routerLLM rd.evaluation rd.accumulatedPlan rd.execSuccess), ?_⟩
      simp [dsNext, decide_action, hc, hr, apply_refinement_action, add_step]

theorem ds_runAux_planBefore_step (ag : DSAgents) :
    ∀ (fuel it : Nat) (plan : List String) (cs : String) (i : Nat),
      i + 1 < (ds_runAux ag fuel it plan cs).2.length →
      (∃ x, ((ds_runAux ag fuel it plan cs).2.getD (i + 1) dummyDSRound).planBefore =
          ((ds_runAux ag fuel it plan cs).2.getD i dummyDSRound).planBefore ++ [x]) ∨
      (∃ j x, j < ((ds_runAux ag fuel it plan cs).2.getD i dummyDSRound).planBefore.length ∧
          ((ds_runAux ag fuel it plan cs).2.getD (i + 1) dummyDSRound).planBefore =
          ((ds_runAux ag fuel it plan cs).2.getD i dummyDSRound).planBefore.set j x) := by
  intro fuel
  induction fuel with
  | zero => intro it plan cs i h; simp [ds_runAux] at h
  | succ n ih =>
    intro it plan cs i h
    by_cases hv : (dsRoundData ag it plan cs).verdict = "SUFFICIENT"
    · rw [ds_runAux_succ_sufficient ag n it plan cs hv] at h
      simp at h
    · rw [ds_runAux_succ_continue ag n it plan cs hv] at h ⊢
      cases i with
      | zero =>
        simp only [List.getD_cons_zero, List.getD_cons_succ, List.length_cons] at h ⊢
        have hpos : 0 < (ds_runAux ag n (it + 1)
            (dsNext ag (dsRoundData ag it plan cs) plan cs).1
            (dsNext ag (dsRoundData ag it plan cs) plan cs).2).2.length := by omega
        cases n with
        | zero => simp [ds_runAux] at hpos
        | succ m =>
          rw [ds_runAux_succ_getD_zero]
          rw [dsRoundData_planBefore, dsRoundData_planBefore]
          exact dsNext_appends_or_sets ag (dsRoundData ag it plan cs) plan cs
      | succ j =>
        simp only [List.getD_cons_succ, List.length_cons] at h ⊢
        exact ih (it + 1) (dsNext ag (dsRoundData ag it plan cs) plan cs).1
          (dsNext ag (dsRoundData ag it plan cs) plan cs).2 j (by omega)

/-- C8: across rounds of the analysis-refinement loop the plan never shrinks:
consecutive trace entries are related by appending one step or replacing one
existing step in place, so the plan length is monotone; moreover a CORRECT
action whose target index does not resolve to an existing position degrades
to ADD, and a REMOVE action is dispatched as ADD (with a printed warning), so
positions always match sequence order. -/
theorem plan_length_monotone (ag : DSAgents) (s0 : String) (m i : Nat)
    (h : i + 1 < (ds_star_run ag s0 m).2.length) :
    (((ds_star_run ag s0 m).2.getD i dummyDSRound).planBefore.length ≤
      ((ds_star_run ag s0 m).2.getD (i + 1) dummyDSRound).planBefore.length) ∧
    ((∃ x, ((ds_star_run ag s0 m).2.getD (i + 1) dummyDSRound).planBefore =
        ((ds_star_run ag s0 m).2.getD i dummyDSRound).planBefore ++ [x]) ∨
      (∃ j x, j < ((ds_star_run ag s0 m).2.getD i dummyDSRound).planBefore.length ∧
        ((ds_star_run ag s0 m).2.getD (i + 1) dummyDSRound).planBefore =
        ((ds_star_run ag s0 m).2.getD i dummyDSRound).planBefore.set j x)) ∧
    (∀ (plan : List String) (idx : Nat) (fb : String),
      plan.length ≤ idx → correct_step ag plan idx fb = add_step ag plan fb) ∧
    (∀ (plan : List String) (idx : Option Nat) (fb cs : String),
      apply_refinement_action ag plan "REMOVE_STEP" idx fb cs = add_step ag plan fb) := by
  simp only [ds_star_run] at h ⊢
  have hstep := ds_runAux_planBefore_step ag m 1 [s0] s0 i h
  refine ⟨?_, hstep, ?_, ?_⟩
  · rcases hstep with ⟨x, hx⟩ | ⟨j, x, hj, hx⟩
    · rw [hx]; simp
    · rw [hx]; simp
  · intro plan idx fb hle
    simp [correct_step, hle]
  · intro plan idx fb cs
    simp [apply_refinement_action]

/-- Witness for C8: with a router that always chooses ADD, round 2's plan
extends round 1's plan, so its length does not decrease. -/
theorem plan_length_monotone_witness :
    0 + 1 < (ds_star_run dsAddingAgents "s0" 2).2.length ∧
    ((ds_star_run dsAddingAgents "s0" 2).2.getD 0 dummyDSRound).planBefore.length ≤
    ((ds_star_run dsAddingAgents "s0" 2).2.getD 1 dummyDSRound).planBefore.length :=
  ⟨by decide, (plan_length_monotone dsAddingAgents "s0" 2 0 (by decide)).1⟩

/-- C10: whenever `decide_action` returns the CORRECT or REMOVE action it
returns target step index 0 — the index is a literal, never derived from the
feedback text — so a correction always rewrites the first plan step
(`plan.set 0`), degrading to ADD only when the plan is empty. -/
theorem router_target_index_constant_zero :
    (∀ d : String,
      (decide_action d).1 = "CORRECT_STEP" ∨ (decide_action d).1 = "REMOVE_STEP" →
      (decide_action d).2.1 = some 0) ∧
    (∀ (ag : DSAgents) (fb : String), correct_step ag [] 0 fb = add_step ag [] fb) ∧
    (∀ (ag : DSAgents) (plan : List String) (fb : String), plan ≠ [] →
      correct_step ag plan 0 fb =
        (plan.set 0 (ag.plannerCorrect (plan.getD 0 "") fb 0),
          ag.plannerCorrect (plan.getD 0 "") fb 0)) := by
  refine ⟨?_, ?_, ?_⟩
  · intro d hd
    by_cases hc : pyContains (pyUpper d) "CORRECT" = true
    · simp [decide_action, hc]
    · by_cases hr : pyContains (pyUpper d) "REMOVE" = true
      · simp [decide_action, hc, hr]
      · exfalso
        rcases hd with habs | habs <;> simp [decide_action, hc, hr] at habs
  · intro ag fb
    simp [correct_step]
  · intro ag plan fb hne
    have hlen : ¬ (plan.length ≤ 0) := by
      cases plan with
      | nil => exact absurd rfl hne
      | cons a t => simp
    simp [correct_step, hlen]

/-- Witness for C10: a decision text naming step 3 still gets target index 0,
and a correction on an empty plan degrades to ADD. -/
theorem router_target_index_constant_zero_witness :
    (decide_action "Please CORRECT step 3 of the plan").2.1 = some 0 ∧
    correct_step dsAddingAgents [] 0 "more data checks" =
      add_step dsAddingAgents [] "more data checks" :=
  ⟨router_target_index_constant_zero.1 "Please CORRECT step 3 of the plan"
      (Or.inl (by decide)),
    router_target_index_constant_zero.2.1 dsAddingAgents "more data checks"⟩

/-! ## Helper lemmas about the exact document-refinement loop -/

theorem runAuxExact_succ_length_pos (ag : RouterAgentsExact) (n round : Nat) (p k : String) :
    0 < (runAuxExact ag (n + 1) round p k).2.length := by
  cases hval : resolvedIssuesValue (roundDataExact ag p k).scorecard with
  | none => simp [runAuxExact, hval]
  | some v =>
    by_cases h1 : isRejected (roundDataExact ag p k).response = true
    · simp [runAuxExact, hval, h1]
    · by_cases h2 : pyUpper v = "YES"
      · simp [runAuxExact, hval, h1, h2]
      · simp [runAuxExact, hval, h1, h2]

theorem runAuxExact_succ_getD_zero (ag : RouterAgentsExact) (n round : Nat) (p k : String) :
    (runAuxExact ag (n + 1) round p k).2.getD 0 dummyRoundExact = roundDataExact ag p k := by
  cases hval : resolvedIssuesValue (roundDataExact ag p k).scorecard with
  | none => simp [runAuxExact, hval]
  | some v =>
    by_cases h1 : isRejected (roundDataExact ag p k).response = true
    · simp [runAuxExact, hval, h1]
    · by_cases h2 : pyUpper v = "YES"
      · simp [runAuxExact, hval, h1, h2]
      · simp [runAuxExact, hval, h1, h2]

theorem runAuxExact_rejected_at (ag : RouterAgentsExact) :
    ∀ (fuel round : Nat) (p k : String) (i : Nat),
      i < (runAuxExact ag fuel round p k).2.length →
      isRejected (((runAuxExact ag fuel round p k).2.getD i dummyRoundExact).response)
        = true →
      resolvedIssuesValue (((runAuxExact ag fuel round p k).2.getD i
        dummyRoundExact).scorecard) ≠ none →
      (runAuxExact ag fuel round p k).1 = LoopOutcomeExact.rejected (round + i) ∧
      (runAuxExact ag fuel round p k).2.length = i + 1 := by
  intro fuel
  induction fuel with
  | zero => intro round p k i h; simp [runAuxExact] at h
  | succ n ih =>
    intro round p k i h hrej hstr
    cases hval : resolvedIssuesValue (roundDataExact ag p k).scorecard with
    | none =>
      have hi : i = 0 := by
        have hlen : (runAuxExact ag (n + 1) round p k).2.length = 1 := by
          simp [runAuxExact, hval]
        rw [hlen] at h; omega
      subst hi
      rw [runAuxExact_succ_getD_zero] at hstr
      exact absurd hval hstr
    | some v =>
      by_cases h1 : isRejected (roundDataExact ag p k).response = true
      · have hlen : (runAuxExact ag (n + 1) round p k).2.length = 1 := by
          simp [runAuxExact, hval, h1]
        have hi : i = 0 := by rw [hlen] at h; omega
        subst hi
        refine ⟨?_, hlen⟩
        simp [runAuxExact, hval, h1]
      · by_cases h2 : pyUpper v = "YES"
        · have hi : i = 0 := by
            have hlen : (runAuxExact ag (n + 1) round p k).2.length = 1 := by
              simp [runAuxExact, hval, h1, h2]
            rw [hlen] at h; omega
          subst hi
          rw [runAuxExact_succ_getD_zero] at hrej
          exact absurd hrej h1
        · have heq : runAuxExact ag (n + 1) round p k =
              ((runAuxExact ag n (round + 1) (nextPromptExact ag (roundDataExact ag p k))
                  (pyStrip (roundDataExact ag p k).audit)).1,
                roundDataExact ag p k ::
                  (runAuxExact ag n (round + 1) (nextPromptExact ag (roundDataExact ag p k))
                    (pyStrip (roundDataExact ag p k).audit)).2) := by
            simp [runAuxExact, hval, h1, h2]
          cases i with
          | zero =>
            rw [runAuxExact_succ_getD_zero] at hrej
            exact absurd hrej h1
          | succ j =>
            rw [heq] at h hrej hstr ⊢
            simp only [List.length_cons, List.getD_cons_succ] at h hrej hstr ⊢
            have hj : j < (runAuxExact ag n (round + 1)
                (nextPromptExact ag (roundDataExact ag p k))
                (pyStrip (roundDataExact ag p k).audit)).2.length := by omega
            obtain ⟨ho, hl⟩ := ih (round + 1) (nextPromptExact ag (roundDataExact ag p k))
              (pyStrip (roundDataExact ag p k).audit) j hj hrej hstr
            refine ⟨?_, by omega⟩
            have harith : round + 1 + j = round + (j + 1) := by omega
            rw [← harith]
            exact ho

theorem runAuxExact_exhausts (ag : RouterAgentsExact) :
    ∀ (fuel round : Nat) (p k : String),
      (∀ i, i < (runAuxExact ag fuel round p k).2.length →
        isRejected (((runAuxExact ag fuel round p k).2.getD i dummyRoundExact).response)
          = false ∧
        resolvedIssuesValue (((runAuxExact ag fuel round p k).2.getD i
          dummyRoundExact).scorecard) ≠ none ∧
        (resolvedIssuesValue (((runAuxExact ag fuel round p k).2.getD i
          dummyRoundExact).scorecard)).map pyUpper ≠ some "YES") →
      (runAuxExact ag fuel round p k).1 = LoopOutcomeExact.exhausted ∧
      (runAuxExact ag fuel round p k).2.length = fuel := by
  intro fuel
  induction fuel with
  | zero => intro round p k _; simp [runAuxExact]
  | succ n ih =>
    intro round p k hall
    have h0 := hall 0 (runAuxExact_succ_length_pos ag n round p k)
    rw [runAuxExact_succ_getD_zero] at h0
    obtain ⟨hr0, hne0, hy0⟩ := h0
    cases hval : resolvedIssuesValue (roundDataExact ag p k).scorecard with
    | none => exact absurd hval hne0
    | some v =>
      have h1 : ¬ (isRejected (roundDataExact ag p k).response = true) := by
        rw [hr0]; simp
      have h2 : ¬ (pyUpper v = "YES") := by
        intro habs
        rw [hval] at hy0
        exact hy0 (by simp [habs])
      have heq : runAuxExact ag (n + 1) round p k =
          ((runAuxExact ag n (round + 1) (nextPromptExact ag (roundDataExact ag p k))
              (pyStrip (roundDataExact ag p k).audit)).1,
            roundDataExact ag p k ::
              (runAuxExact ag n (round + 1) (nextPromptExact ag (roundDataExact ag p k))
                (pyStrip (roundDataExact ag p k).audit)).2) := by
        simp [runAuxExact, hval, h1, h2]
      have hall2 : ∀ i, i < (runAuxExact ag n (round + 1)
          (nextPromptExact ag (roundDataExact ag p k))
          (pyStrip (roundDataExact ag p k).audit)).2.length →
          isRejected (((runAuxExact ag n (round + 1)
            (nextPromptExact ag (roundDataExact ag p k))
            (pyStrip (roundDataExact ag p k).audit)).2.getD i dummyRoundExact).response)
            = false ∧
          resolvedIssuesValue (((runAuxExact ag n (round + 1)
            (nextPromptExact ag (roundDataExact ag p k))
            (pyStrip (roundDataExact ag p k).audit)).2.getD i dummyRoundExact).scorecard)
            ≠ none ∧
          (resolvedIssuesValue (((runAuxExact ag n (round + 1)
            (nextPromptExact ag (roundDataExact ag p k))
            (pyStrip (roundDataExact ag p k).audit)).2.getD i
            dummyRoundExact).scorecard)).map pyUpper ≠ some "YES" := by
        intro i hi
        have := hall (i + 1) (by rw [heq]; simp only [List.length_cons]; omega)
        rw [heq] at this
        simpa only [List.getD_cons_succ] using this
      obtain ⟨ho, hl⟩ := ih (round + 1) (nextPromptExact ag (roundDataExact ag p k))
        (pyStrip (roundDataExact ag p k).audit) hall2
      rw [heq]
      simp only [List.length_cons]
      exact ⟨ho, by omega⟩

/-! ## Claim theorems: rejection priority and budget exhaustion (exact model) -/

/-- C1 counterexample: a critic response whose raw text contains the
rejection keyword but whose structured scorecard carries the boolean `true`
as the resolved-issues value does not terminate the round REJECTED — the
field access of line 262 raises AttributeError before the rejection check of
line 269 (checked against CPython on this input). -/
theorem rejection_preempted_by_attribute_error :
    isRejected (((run_refinement_loop_exact boolValueRejectAgents "p0" 5).2.getD 0
      dummyRoundExact).response) = true ∧
    (run_refinement_loop_exact boolValueRejectAgents "p0" 5).1 =
      LoopOutcomeExact.attrError 1 ∧
    (run_refinement_loop_exact boolValueRejectAgents "p0" 5).1 ≠
      LoopOutcomeExact.rejected 1 :=
  ⟨by decide, by decide, by decide⟩

/-- C1 amended: in the document-refinement loop, every round whose raw critic
text contains the rejection keyword as a case-insensitive substring and whose
parsed resolved-issues value is a string (as on every line-parsed scorecard)
terminates the loop at that round with outcome REJECTED — with no constraint
on what that string is, so even the success token is overridden: the
rejection check runs before the success check in every such round.  A round
whose structured scorecard carries a non-string resolved-issues value instead
raises at the field access, before either check (see the counterexample). -/
theorem rejection_veto_on_string_value (ag : RouterAgentsExact) (p : String) (m i : Nat)
    (h : i < (run_refinement_loop_exact ag p m).2.length)
    (hrej : isRejected (((run_refinement_loop_exact ag p m).2.getD i
      dummyRoundExact).response) = true)
    (hstr : resolvedIssuesValue (((run_refinement_loop_exact ag p m).2.getD i
      dummyRoundExact).scorecard) ≠ none) :
    (run_refinement_loop_exact ag p m).1 = LoopOutcomeExact.rejected (i + 1) ∧
    (run_refinement_loop_exact ag p m).2.length = i + 1 := by
  cases m with
  | zero => simp [run_refinement_loop_exact] at h
  | succ n =>
    have hne : ¬ (n + 1 = 0) := by omega
    simp only [run_refinement_loop_exact] at h hrej hstr ⊢
    rw [if_neg hne] at h hrej hstr ⊢
    obtain ⟨ho, hl⟩ := runAuxExact_rejected_at ag (n + 1) 1 p "" i h hrej hstr
    refine ⟨?_, hl⟩
    have harith : 1 + i = i + 1 := by omega
    rw [← harith]
    exact ho

/-- Witness for the amended C1: a line-format scorecard whose resolved-issues
value is the string success token together with the rejection keyword in the
free text still terminates REJECTED at round 1. -/
theorem rejection_veto_on_string_value_witness :
    resolvedIssuesValue (((run_refinement_loop_exact bothSignalsAgentsExact "p0" 5).2.getD 0
      dummyRoundExact).scorecard) = some "YES" ∧
    (run_refinement_loop_exact bothSignalsAgentsExact "p0" 5).1 =
      LoopOutcomeExact.rejected 1 :=
  ⟨by decide,
    (rejection_veto_on_string_value bothSignalsAgentsExact "p0" 5 0 (by decide) (by decide)
      (by decide)).1⟩

/-- C3 counterexample, two failure modes of the claim as stated.  First, a
run in which neither check fires in any executed round (round 1 has no
rejection keyword and its resolved value is not the success token) yet the
loop ends at round 1 of a 5-round budget with AttributeError — not EXHAUSTED
after 5 rounds — because the structured value is a non-string.  Second, with
a zero budget the loop does not terminate EXHAUSTED after 0 rounds: the
post-loop diagnostics raise NameError. -/
theorem exhaustion_preempted_counterexample :
    (isRejected (((run_refinement_loop_exact boolValueContinueAgents "p0" 5).2.getD 0
        dummyRoundExact).response) = false ∧
      (resolvedIssuesValue (((run_refinement_loop_exact boolValueContinueAgents "p0" 5).2.getD 0
        dummyRoundExact).scorecard)).map pyUpper ≠ some "YES") ∧
    (run_refinement_loop_exact boolValueContinueAgents "p0" 5).2.length = 1 ∧
    (run_refinement_loop_exact boolValueContinueAgents "p0" 5).1 =
      LoopOutcomeExact.attrError 1 ∧
    (run_refinement_loop_exact silentAgentsExact "p0" 0).1 = LoopOutcomeExact.nameError :=
  ⟨⟨by decide, by decide⟩, by decide, by decide, by decide⟩

/-- C3 amended: if the round budget is positive and in every executed round
the parsed resolved-issues value is a string that, case-normalized, is not
the success token, and the rejection keyword is absent, then the loop
terminates with outcome EXHAUSTED after exactly `max_iterations` rounds; the
trace has one entry per executed round, i.e. per Drafter invocation and per
Critic invocation, so both collaborators are invoked exactly `max_iterations`
times.  (A non-string structured value raises at the field access instead,
and a zero budget raises in the post-loop diagnostics — see the
counterexample.) -/
theorem budget_exhaustion_on_string_rounds (ag : RouterAgentsExact) (p : String) (m : Nat)
    (hm : 0 < m)
    (hall : ∀ i, i < (run_refinement_loop_exact ag p m).2.length →
      isRejected (((run_refinement_loop_exact ag p m).2.getD i dummyRoundExact).response)
        = false ∧
      resolvedIssuesValue (((run_refinement_loop_exact ag p m).2.getD i
        dummyRoundExact).scorecard) ≠ none ∧
      (resolvedIssuesValue (((run_refinement_loop_exact ag p m).2.getD i
        dummyRoundExact).scorecard)).map pyUpper ≠ some "YES") :
    (run_refinement_loop_exact ag p m).1 = LoopOutcomeExact.exhausted ∧
    (run_refinement_loop_exact ag p m).2.length = m := by
  cases m with
  | zero => omega
  | succ n =>
    have hne : ¬ (n + 1 = 0) := by omega
    simp only [run_refinement_loop_exact] at hall ⊢
    rw [if_neg hne] at hall ⊢
    exact runAuxExact_exhausts ag (n + 1) 1 p "" hall

/-- Witness for the amended C3: a reviewer that never emits either signal
exhausts a 3-round budget after exactly 3 rounds. -/
theorem budget_exhaustion_on_string_rounds_witness :
    (run_refinement_loop_exact silentAgentsExact "p0" 3).1 = LoopOutcomeExact.exhausted ∧
    (run_refinement_loop_exact silentAgentsExact "p0" 3).2.length = 3 :=
  budget_exhaustion_on_string_rounds silentAgentsExact "p0" 3 (by decide) (by decide)
